import Mathlib

/-
Verification of the orbo yolo-service orchestration layer.

The definitions below are a shallow embedding of the Python sources
src/yolo-service/main.py and src/yolo-service/grpc_server.py.
Machine floats are embedded as rationals, Python lists as Lean lists,
an OrderedDict as the list of its keys in insertion order
(head = oldest / least-recently-used end, tail = newest / most-recently-used
end), and code that raises as functions returning an error value.
-/

/-- Embeds the YoloTask enum (main.py lines 44-50). -/
inductive YoloTask where
  | detect
  | pose
  | segment
  | obb
  | classify
deriving DecidableEq, Repr, Fintype

/-- Embeds YoloTask string values (main.py lines 44-50): each member's value. -/
def YoloTask.value : YoloTask → String
  | .detect => "detect"
  | .pose => "pose"
  | .segment => "segment"
  | .obb => "obb"
  | .classify => "classify"

/-- Embeds Python str.lower(): character-by-character lowercasing.  The
service only lowercases ASCII task and class names, where this agrees with
Python.  (Defined structurally over the character list so that concrete
instances evaluate inside the kernel.) -/
def lowerString (s : String) : String := ⟨s.data.map Char.toLower⟩

/-- Embeds the constructor call YoloTask(name) over the enum values
(raising ValueError becomes the none case). -/
def parseYoloTask (s : String) : Option YoloTask :=
  if s = "detect" then some .detect
  else if s = "pose" then some .pose
  else if s = "segment" then some .segment
  else if s = "obb" then some .obb
  else if s = "classify" then some .classify
  else none

/-- Embeds TASK_MODEL_FILES together with _get_model_path (main.py lines
54-60 and 233-238): the template for the task with {size} substituted. -/
def getModelPath (size : String) : YoloTask → String
  | .detect => "yolo11" ++ size ++ ".pt"
  | .pose => "yolo11" ++ size ++ "-pose.pt"
  | .segment => "yolo11" ++ size ++ "-seg.pt"
  | .obb => "yolo11" ++ size ++ "-obb.pt"
  | .classify => "yolo11" ++ size ++ "-cls.pt"

namespace LRUModelCache

/-
The cache state of LRUModelCache (main.py lines 82-120) is an OrderedDict
from model path to loaded model.  The claims only observe which keys are
present and in which order, so the state is embedded as the list of keys in
OrderedDict order: head is the least-recently-used entry (the one
popitem(last=False) removes), tail is the most-recently-used.
-/

/-- Embeds OrderedDict.move_to_end(k): remove the key from its position and
re-append it at the most-recently-used end. -/
def moveToEnd (cache : List String) (k : String) : List String :=
  cache.erase k ++ [k]

/-- Embeds LRUModelCache.get (main.py lines 93-99): on a hit move the key to
the most-recently-used end and report the hit; on a miss leave the cache
untouched. -/
def get (cache : List String) (k : String) : Bool × List String :=
  if k ∈ cache then (true, moveToEnd cache k) else (false, cache)

/-- Embeds the eviction loop of LRUModelCache.put (main.py lines 108-113):
while the cache holds at least max_size entries, popitem(last=False) removes
the least-recently-used entry (the head).  In Python a call with max_size = 0
on an empty dict would raise KeyError inside popitem; the embedding returns
the empty list there, and every theorem below assumes 1 ≤ maxSize, where the
two behaviours coincide. -/
def evict (maxSize : Nat) : List String → List String
  | [] => []
  | k :: rest =>
    if maxSize ≤ (k :: rest).length then evict maxSize rest else k :: rest

/-- Embeds LRUModelCache.put (main.py lines 101-116): a key already present
is only moved to the most-recently-used end; otherwise the eviction loop
runs and the new key is inserted at the most-recently-used end. -/
def put (maxSize : Nat) (cache : List String) (k : String) : List String :=
  if k ∈ cache then moveToEnd cache k
  else evict maxSize cache ++ [k]

/-- A cache operation: get on a hit, or put of a newly loaded model on a
miss (the two mutations _get_model performs, main.py lines 240-268). -/
inductive CacheOp where
  | get (k : String)
  | put (k : String)
deriving DecidableEq, Repr

/-- One cache operation applied to a cache state. -/
def step (maxSize : Nat) (cache : List String) : CacheOp → List String
  | .get k => (get cache k).2
  | .put k => put maxSize cache k

/-- A sequence of cache operations run from the empty cache
(LRUModelCache.__init__, main.py lines 85-88). -/
def run (maxSize : Nat) (ops : List CacheOp) : List String :=
  ops.foldl (step maxSize) []

theorem length_moveToEnd {cache : List String} {k : String} (h : k ∈ cache) :
    (moveToEnd cache k).length = cache.length := by
  have hpos : 0 < cache.length := List.length_pos.mpr (by
    intro hnil; rw [hnil] at h; exact (List.not_mem_nil k h))
  simp [moveToEnd, List.length_erase_of_mem h]
  omega

theorem length_evict_lt {maxSize : Nat} (h : 1 ≤ maxSize) :
    ∀ cache : List String, (evict maxSize cache).length < maxSize := by
  intro cache
  induction cache with
  | nil => simpa [evict] using h
  | cons k rest ih =>
    simp only [evict]
    split
    · exact ih
    · rename_i hc
      simp only [List.length_cons] at hc ⊢
      omega

theorem length_step_le {maxSize : Nat} {cache : List String}
    (hmax : 1 ≤ maxSize) (hc : cache.length ≤ maxSize) (op : CacheOp) :
    (step maxSize cache op).length ≤ maxSize := by
  cases op with
  | get k =>
    by_cases hk : k ∈ cache
    · simpa [step, get, hk, length_moveToEnd hk] using hc
    · simpa [step, get, hk] using hc
  | put k =>
    by_cases hk : k ∈ cache
    · simpa [step, put, hk, length_moveToEnd hk] using hc
    · have := length_evict_lt hmax cache
      simp only [step, put, if_neg hk, List.length_append, List.length_singleton]
      omega

theorem length_run_aux {maxSize : Nat} (hmax : 1 ≤ maxSize) :
    ∀ (ops : List CacheOp) (cache : List String), cache.length ≤ maxSize →
      (ops.foldl (step maxSize) cache).length ≤ maxSize := by
  intro ops
  induction ops with
  | nil => intro cache hc; simpa using hc
  | cons op rest ih =>
    intro cache hc
    exact ih (step maxSize cache op) (length_step_le hmax hc op)

end LRUModelCache

/-- Claim C2: for every sequence of model-cache operations (get on hit, put
of a newly loaded model on miss), the number of models held in the cache
never exceeds the configured capacity max_size: put evicts entries until the
cache is below capacity before inserting the new model. -/
theorem cache_never_exceeds_capacity (maxSize : Nat) (ops : List LRUModelCache.CacheOp)
    (hmax : 1 ≤ maxSize) :
    (LRUModelCache.run maxSize ops).length ≤ maxSize := by
  exact LRUModelCache.length_run_aux hmax ops [] (by simp)

/-- Witness for claim C2 at a concrete operation sequence. -/
theorem cache_never_exceeds_capacity_witness :
    1 ≤ 2 ∧
      (LRUModelCache.run 2
        [.put "yolo11n.pt", .put "yolo11n-pose.pt", .put "yolo11n-seg.pt"]).length ≤ 2 :=
  ⟨by decide,
   cache_never_exceeds_capacity 2
     [.put "yolo11n.pt", .put "yolo11n-pose.pt", .put "yolo11n-seg.pt"] (by decide)⟩

namespace LRUModelCache

theorem evict_of_length_lt {maxSize : Nat} :
    ∀ {l : List String}, l.length < maxSize → evict maxSize l = l := by
  intro l hl
  cases l with
  | nil => rfl
  | cons k rest => simp only [evict, if_neg (Nat.not_le.mpr hl)]

theorem put_full_evicts_head {maxSize : Nat} {c : List String} {j : String}
    (hmax : 1 ≤ maxSize) (hj : j ∉ c) (hfull : c.length = maxSize) :
    put maxSize c j = c.tail ++ [j] := by
  cases c with
  | nil => exfalso; simp at hfull; omega
  | cons h t =>
    have hcond : maxSize ≤ (h :: t).length := by omega
    have ht : t.length < maxSize := by simp at hfull; omega
    simp only [put, if_neg hj, evict, if_pos hcond, evict_of_length_lt ht, List.tail_cons]

end LRUModelCache

/-- Claim C3: when inserting a new model into a full cache, the entry
evicted is always the least-recently-used by access order, not by insertion
order: a cache hit (get) moves the key to the most-recently-used position
(it becomes the last key, the key multiset unchanged), eviction removes the
entry at the least-recently-used end (the head of the order list), and in
the concrete capacity-2 run put a, put b, get a, put c the evicted entry is
b (accessed longest ago) although a was inserted first. -/
theorem lru_evicts_by_access_order (maxSize : Nat) (c : List String) (k j : String)
    (hmax : 1 ≤ maxSize) :
    (k ∈ c → ((LRUModelCache.get c k).2.getLast? = some k ∧
      (LRUModelCache.get c k).2.Perm c)) ∧
    (j ∉ c → c.length = maxSize → LRUModelCache.put maxSize c j = c.tail ++ [j]) ∧
    LRUModelCache.run 2 [.put "a", .put "b", .get "a", .put "c"] = ["a", "c"] := by
  refine ⟨fun hk => ⟨?_, ?_⟩, fun hj hfull => ?_, ?_⟩
  · simp [LRUModelCache.get, hk, LRUModelCache.moveToEnd]
  · simp only [LRUModelCache.get, if_pos hk, LRUModelCache.moveToEnd]
    exact (List.perm_append_singleton _ _).trans (List.perm_cons_erase hk).symm
  · exact LRUModelCache.put_full_evicts_head hmax hj hfull
  · decide

/-- Witness for claim C3: a concrete hit on a two-entry cache and a concrete
full-cache insertion. -/
theorem lru_evicts_by_access_order_witness :
    ("a" ∈ ["a", "b"] →
      ((LRUModelCache.get ["a", "b"] "a").2.getLast? = some "a" ∧
        (LRUModelCache.get ["a", "b"] "a").2.Perm ["a", "b"])) ∧
    ("c" ∉ ["a", "b"] → (["a", "b"] : List String).length = 2 →
      LRUModelCache.put 2 ["a", "b"] "c" = (["a", "b"] : List String).tail ++ ["c"]) ∧
    LRUModelCache.run 2 [.put "a", .put "b", .get "a", .put "c"] = ["a", "c"] :=
  lru_evicts_by_access_order 2 ["a", "b"] "a" "c" (by decide)

/-- Embeds MultiTaskYOLOService._get_model (main.py lines 240-268) as a
function of the cache state.  The external effects of the try block (the
YOLO constructor, model.to(device) and the warm-up inference, lines
255-260) are summarised by the loadSucceeds flag: loadSucceeds = false
means one of them raised.  The function returns the HTTP error code raised
(some 400 for a task outside enabled_tasks, some 503 when the load fails)
together with the cache state after the call: on a hit, cache.get moved the
key to the most-recently-used end (lines 248-250); after a successful load,
cache.put inserted it (line 263); when the load raises, the exception is
re-raised as HTTP 503 (lines 266-268) before put is ever reached, so the
cache state is returned as it was. -/
def getModel (enabled : List YoloTask) (maxSize : Nat) (cache : List String)
    (size : String) (task : YoloTask) (loadSucceeds : Bool) : Option Nat × List String :=
  if task ∉ enabled then (some 400, cache)
  else if getModelPath size task ∈ cache then
    (none, LRUModelCache.moveToEnd cache (getModelPath size task))
  else if loadSucceeds then (none, LRUModelCache.put maxSize cache (getModelPath size task))
  else (some 503, cache)

/-- Claim C4: for every task whose model load or warm-up raises an
exception, acquiring the model (_get_model) fails with HTTP 503 and the
model cache is left exactly as it was before the call: no entry is
inserted and no existing entry is evicted or reordered.  (The load is only
attempted on a cache miss, and a miss does not reorder the cache, so the
hypothesis that the model path is absent names the only state in which a
load can raise.) -/
theorem getModel_load_failure_leaves_cache (enabled : List YoloTask) (maxSize : Nat)
    (cache : List String) (size : String) (task : YoloTask)
    (henabled : task ∈ enabled) (hmiss : getModelPath size task ∉ cache) :
    getModel enabled maxSize cache size task false = (some 503, cache) := by
  simp [getModel, henabled, hmiss]

/-- Witness for claim C4: the detect task, enabled, with an empty cache. -/
theorem getModel_load_failure_leaves_cache_witness :
    YoloTask.detect ∈ [YoloTask.detect] ∧
      getModelPath "n" .detect ∉ ([] : List String) ∧
      getModel [.detect] 3 [] "n" .detect false = (some 503, []) :=
  ⟨by decide, by decide,
    getModel_load_failure_leaves_cache [.detect] 3 [] "n" .detect (by decide) (by decide)⟩

/-- Embeds the task-validation loop of MultiTaskYOLOService.analyze
(main.py lines 602-611): each requested name is lowercased and parsed with
the YoloTask constructor; unknown names (ValueError) and names of tasks
outside enabled_tasks are skipped with a warning, never raising. -/
def validTasks (enabled : List YoloTask) (tasks : List String) : List YoloTask :=
  tasks.filterMap (fun taskName =>
    match parseYoloTask (lowerString taskName) with
    | some task => if task ∈ enabled then some task else none
    | none => none)

/-- Embeds main.py lines 613-614: if no valid task remains after dropping,
analyze defaults to detection only. -/
def analyzeTasks (enabled : List YoloTask) (tasks : List String) : List YoloTask :=
  let valid := validTasks enabled tasks
  if valid = [] then [.detect] else valid

/-- Claim C5: unknown task names and names of tasks outside the enabled set
are dropped by analyze without an error and without affecting the other
requested tasks, and if no valid task remains analyze runs detection only;
in particular requesting detect, pose, bogus with detect and pose enabled
executes detect and pose and drops bogus.  (The validation is a total
function, so no request list can make it raise.) -/
theorem analyze_drops_invalid_tasks (enabled : List YoloTask)
    (pre post : List String) (b t : String) (tk : YoloTask)
    (hb : parseYoloTask (lowerString b) = none)
    (ht : parseYoloTask (lowerString t) = some tk) (htk : tk ∉ enabled) :
    validTasks [.detect, .pose] ["detect", "pose", "bogus"] = [.detect, .pose] ∧
    validTasks enabled (pre ++ b :: post) = validTasks enabled (pre ++ post) ∧
    validTasks enabled (pre ++ t :: post) = validTasks enabled (pre ++ post) ∧
    (∀ tasks : List String, validTasks enabled tasks = [] →
      analyzeTasks enabled tasks = [.detect]) := by
  refine ⟨by decide, ?_, ?_, ?_⟩
  · simp [validTasks, List.filterMap_append, List.filterMap_cons, hb]
  · simp [validTasks, List.filterMap_append, List.filterMap_cons, ht, htk]
  · intro tasks hnil
    simp [analyzeTasks, hnil]

/-- Witness for claim C5: bogus is unknown, segment parses but is not
enabled, and both are dropped from between detect and pose. -/
theorem analyze_drops_invalid_tasks_witness :
    validTasks [.detect, .pose] ["detect", "pose", "bogus"] = [.detect, .pose] ∧
    validTasks [.detect, .pose] (["detect"] ++ "bogus" :: ["pose"]) =
      validTasks [.detect, .pose] (["detect"] ++ ["pose"]) ∧
    validTasks [.detect, .pose] (["detect"] ++ "segment" :: ["pose"]) =
      validTasks [.detect, .pose] (["detect"] ++ ["pose"]) ∧
    (∀ tasks : List String, validTasks [.detect, .pose] tasks = [] →
      analyzeTasks [.detect, .pose] tasks = [.detect]) :=
  analyze_drops_invalid_tasks [.detect, .pose] ["detect"] ["pose"] "bogus" "segment"
    .segment (by decide) (by decide) (by decide)

/-- Embeds TASK_DRAW_ORDER (main.py line 63): drawing order from bottom
layer to top layer. -/
def TASK_DRAW_ORDER : List YoloTask := [.segment, .obb, .detect, .pose]

/-- Embeds the sort key of main.py lines 624-627: the index of the task in
TASK_DRAW_ORDER, and 99 for a task outside it (classify). -/
def taskKey (t : YoloTask) : Nat :=
  match TASK_DRAW_ORDER.indexOf? t with
  | some i => i
  | none => 99

/-- The ordering relation the sort of main.py line 624 sorts by: comparison
of draw-order keys. -/
def taskLE (a b : YoloTask) : Prop := taskKey a ≤ taskKey b

instance : DecidableRel taskLE := fun a b =>
  inferInstanceAs (Decidable (taskKey a ≤ taskKey b))

instance : IsTotal YoloTask taskLE := ⟨fun a b => Nat.le_total (taskKey a) (taskKey b)⟩

instance : IsTrans YoloTask taskLE := ⟨fun _ _ _ => Nat.le_trans⟩

instance : IsAntisymm YoloTask taskLE := ⟨by decide⟩

/-- Embeds sorted(valid_tasks, key=...) of main.py lines 624-627.  Python
list sorting is a stable sort by the key; insertion sort is also stable,
and since taskKey is injective on the five tasks every sort by this key
produces the same list. -/
def sortedTasks (ts : List YoloTask) : List YoloTask :=
  List.insertionSort taskLE ts

/-- Embeds the execution order of analyze (main.py lines 602-629 and 673):
the requested tasks are validated, defaulted and sorted by draw order; the
loop then runs them in exactly this order and tasks_executed reports their
values in the same order. -/
def executedTasks (enabled : List YoloTask) (tasks : List String) : List YoloTask :=
  sortedTasks (analyzeTasks enabled tasks)

theorem sortedTasks_perm_eq {ts₁ ts₂ : List YoloTask} (hp : ts₁.Perm ts₂) :
    sortedTasks ts₁ = sortedTasks ts₂ :=
  List.eq_of_perm_of_sorted
    ((List.perm_insertionSort taskLE ts₁).trans
      (hp.trans (List.perm_insertionSort taskLE ts₂).symm))
    (List.sorted_insertionSort taskLE ts₁)
    (List.sorted_insertionSort taskLE ts₂)

/-- Claim C6: analyze executes and draws the valid tasks in the fixed
canonical order segment, obb, detect, pose with classify last, independent
of the order in which the tasks were requested: the executed list is always
sorted by the draw-order key, and any permutation of the same requested
task list yields the same execution order and the same tasks_executed
value list. -/
theorem analyze_executes_in_canonical_order (enabled : List YoloTask)
    (ts : List YoloTask) (requested₁ requested₂ : List String)
    (hperm : requested₁.Perm requested₂) :
    (sortedTasks ts).Sorted taskLE ∧
    executedTasks enabled requested₁ = executedTasks enabled requested₂ ∧
    (executedTasks enabled requested₁).map YoloTask.value =
      (executedTasks enabled requested₂).map YoloTask.value ∧
    sortedTasks [.classify, .pose, .detect, .obb, .segment] =
      [.segment, .obb, .detect, .pose, .classify] := by
  have hvalid : (validTasks enabled requested₁).Perm (validTasks enabled requested₂) :=
    hperm.filterMap _
  have hexec : executedTasks enabled requested₁ = executedTasks enabled requested₂ := by
    unfold executedTasks analyzeTasks
    by_cases hnil : validTasks enabled requested₁ = []
    · have hnil₂ : validTasks enabled requested₂ = [] := by
        rw [hnil] at hvalid
        exact hvalid.symm.eq_nil
      simp [hnil, hnil₂]
    · have hnil₂ : validTasks enabled requested₂ ≠ [] := by
        intro h
        rw [h] at hvalid
        exact hnil hvalid.eq_nil
      simp only [if_neg hnil, if_neg hnil₂]
      exact sortedTasks_perm_eq hvalid
  exact ⟨List.sorted_insertionSort taskLE ts, hexec, by rw [hexec], by decide⟩

/-- Witness for claim C6: the request lists pose-then-detect and
detect-then-pose are permutations of one another and execute identically. -/
theorem analyze_executes_in_canonical_order_witness :
    (sortedTasks [.pose, .segment]).Sorted taskLE ∧
    executedTasks [.detect, .pose] ["pose", "detect"] =
      executedTasks [.detect, .pose] ["detect", "pose"] ∧
    (executedTasks [.detect, .pose] ["pose", "detect"]).map YoloTask.value =
      (executedTasks [.detect, .pose] ["detect", "pose"]).map YoloTask.value ∧
    sortedTasks [.classify, .pose, .detect, .obb, .segment] =
      [.segment, .obb, .detect, .pose, .classify] :=
  analyze_executes_in_canonical_order [.detect, .pose] [.pose, .segment]
    ["pose", "detect"] ["detect", "pose"] (by decide)

/-- Embeds MultiTaskYOLOService._classify_pose (main.py lines 379-477) over
rational coordinates.  Inputs are the 17 COCO keypoints (x, y) and their
confidences; KEYPOINT_NAMES (lines 66-71) fixes the indices used below:
0 nose, 5/6 shoulders, 9/10 wrists, 11/12 hips, 15/16 ankles.  A keypoint
enters the kp dictionary only when its confidence exceeds 0.3 (lines
396-400); absent nose, hip-, shoulder- or ankle-centers are None (embedded
as none), absent wrists default to y = 9999 (lines 423-424).  The decision
chain (lines 434-470) is sequential with fall-through: the fallen rule
returns first, then crouching, then lying, then arms-raised, else standing.
The metrics dictionary the Python function also returns does not influence
the label or the confidence and is not embedded; the try block cannot raise
on these pure arithmetic operations, so the except path (lines 472-475) is
unreachable in the embedding. -/
def classifyPose (keypoints : List (ℚ × ℚ)) (confidences : List ℚ) : String × ℚ :=
  if keypoints.length < 17 ∨ confidences.length < 17 then ("unknown", 0)
  else
    let ky : Nat → ℚ := fun i => (keypoints.getD i (0, 0)).2
    let kconf : Nat → ℚ := fun i => confidences.getD i 0
    let noseY : Option ℚ := if 3 / 10 < kconf 0 then some (ky 0) else none
    let hipY : Option ℚ :=
      if 3 / 10 < kconf 11 ∧ 3 / 10 < kconf 12 then some ((ky 11 + ky 12) / 2) else none
    let shoulderY : Option ℚ :=
      if 3 / 10 < kconf 5 ∧ 3 / 10 < kconf 6 then some ((ky 5 + ky 6) / 2) else none
    let ankleY : Option ℚ :=
      if 3 / 10 < kconf 15 ∧ 3 / 10 < kconf 16 then some ((ky 15 + ky 16) / 2) else none
    let leftWristY : ℚ := if 3 / 10 < kconf 9 then ky 9 else 9999
    let rightWristY : ℚ := if 3 / 10 < kconf 10 then ky 10 else 9999
    let armsOrStanding : String × ℚ :=
      match shoulderY with
      | some s =>
        if leftWristY < s - 50 ∧ rightWristY < s - 50 then ("arms_raised", 8 / 10)
        else ("standing", 9 / 10)
      | none => ("standing", 9 / 10)
    let crouchOnward : String × ℚ :=
      match shoulderY, hipY, ankleY with
      | some s, some h, some a =>
        let torsoHeight := |h - s|
        let legHeight := |a - h|
        if torsoHeight > legHeight * (3 / 2) ∧ legHeight < 100 then ("crouching", 8 / 10)
        else if |s - h| < 30 then ("lying", 85 / 100)
        else armsOrStanding
      | _, _, _ => armsOrStanding
    match noseY, hipY with
    | some n, some h => if n > h + 50 then ("fallen", 9 / 10) else crouchOnward
    | _, _ => crouchOnward

/-- Claim C7: for every 17-entry keypoint and confidence input in which the
nose and both hips have confidence above 0.3 and the nose y-coordinate
exceeds the hip-center y-coordinate by more than 50, _classify_pose returns
the label fallen with confidence 0.9 — whatever every other keypoint holds,
so the fallen rule takes priority over every other rule. -/
theorem classify_pose_fallen_first (kps : List (ℚ × ℚ)) (confs : List ℚ)
    (hk : 17 ≤ kps.length) (hc : 17 ≤ confs.length)
    (hnose : 3 / 10 < confs.getD 0 0)
    (hlh : 3 / 10 < confs.getD 11 0) (hrh : 3 / 10 < confs.getD 12 0)
    (hfall : ((kps.getD 11 (0, 0)).2 + (kps.getD 12 (0, 0)).2) / 2 + 50 <
      (kps.getD 0 (0, 0)).2) :
    classifyPose kps confs = ("fallen", 9 / 10) := by
  have hlen : ¬(kps.length < 17 ∨ confs.length < 17) := by omega
  simp only [classifyPose, if_neg hlen, if_pos hnose, if_pos (And.intro hlh hrh)]
  simp only [gt_iff_lt, if_pos hfall]

/-- Concrete keypoints for the C7 witness: nose at (100, 300), hips at
(90, 200) and (110, 200), every other keypoint at the origin. -/
def fallenKeypoints : List (ℚ × ℚ) :=
  [(100, 300), (0, 0), (0, 0), (0, 0), (0, 0), (0, 0), (0, 0), (0, 0), (0, 0),
   (0, 0), (0, 0), (90, 200), (110, 200), (0, 0), (0, 0), (0, 0), (0, 0)]

/-- Concrete confidences for the C7 witness: 0.9 for all 17 keypoints. -/
def fallenConfidences : List ℚ := List.replicate 17 (9 / 10)

/-- Witness for claim C7: nose y-coordinate 300 against hip-center
y-coordinate 200 classifies as fallen with confidence 0.9. -/
theorem classify_pose_fallen_first_witness :
    ((fallenKeypoints.getD 11 (0, 0)).2 + (fallenKeypoints.getD 12 (0, 0)).2) / 2 + 50 <
      (fallenKeypoints.getD 0 (0, 0)).2 ∧
    classifyPose fallenKeypoints fallenConfidences = ("fallen", 9 / 10) :=
  ⟨by norm_num [fallenKeypoints],
   classify_pose_fallen_first fallenKeypoints fallenConfidences
     (by norm_num [fallenKeypoints]) (by norm_num [fallenConfidences])
     (by norm_num [fallenConfidences]) (by norm_num [fallenConfidences])
     (by norm_num [fallenConfidences]) (by norm_num [fallenKeypoints])⟩

/-- Modelled from the spec: a detection as the Track State Store (spec
section 4.2) consumes it — the externally assigned track id and the box
center.  The Track State Store implementation is missing from src/: main.py
line 138 declares track_history but never populates it, and
detect_with_tracking (main.py lines 834-856) returns a placeholder empty
tracks list, while DetectStream (grpc_server.py lines 142-149) consumes
track entries with exactly the fields modelled here. -/
structure TrackDetection where
  trackId : Int
  center : ℚ × ℚ
deriving DecidableEq, Repr

/-- Modelled from the spec: the per-(camera, track id) entry of the missing
Track State Store — last known center, age in frames, frames since the
last update (spec section 3, Track). -/
structure TrackEntry where
  center : ℚ × ℚ
  age : Nat
  framesSinceUpdate : Nat
deriving DecidableEq, Repr

/-- Modelled from the spec: one element of tracks_with_state, the per-track
output of the missing Track State Store update (spec sections 4.2 and 6):
track id, state label, age, velocity. -/
structure TrackOutput where
  trackId : Int
  state : String
  age : Nat
  velocity : ℚ × ℚ
deriving DecidableEq, Repr

/-- Modelled from the spec: the store of the missing Track State Store,
keyed by (camera id, track id) (spec section 3, Track; ownership section). -/
abbrev TrackStore := List ((String × Int) × TrackEntry)

/-- Lookup of a (camera id, track id) key in the store. -/
def findTrack : TrackStore → String × Int → Option TrackEntry
  | [], _ => none
  | (k, e) :: rest, key => if k = key then some e else findTrack rest key

/-- Modelled from the spec: the per-detection step of the missing Track
State Store update (spec section 4.2).  A track id of at most 0 bypasses
the store entirely; an unseen (camera, id) creates an entry with age 0 and
frames-since-update 0 and reports state new with velocity (0, 0); an
existing entry records the new center, increments age, resets
frames-since-update and reports state active with velocity equal to the
current center minus the previously recorded center. -/
def updateOne (store : TrackStore) (cam : String) (d : TrackDetection) :
    TrackStore × Option TrackOutput :=
  if d.trackId ≤ 0 then (store, none)
  else
    match findTrack store (cam, d.trackId) with
    | none =>
      (store ++ [((cam, d.trackId), ⟨d.center, 0, 0⟩)],
        some ⟨d.trackId, "new", 0, (0, 0)⟩)
    | some e =>
      (store.map fun p =>
        if p.1 = (cam, d.trackId) then (p.1, ⟨d.center, e.age + 1, 0⟩) else p,
        some ⟨d.trackId, "active", e.age + 1,
          (d.center.1 - e.center.1, d.center.2 - e.center.2)⟩)

/-- Modelled from the spec: folding the per-detection step over one frame's
detections, collecting the per-track outputs in detection order. -/
def applyDetections (cam : String) : TrackStore → List TrackDetection →
    TrackStore × List TrackOutput
  | store, [] => (store, [])
  | store, d :: rest =>
    let p := updateOne store cam d
    let q := applyDetections cam p.1 rest
    (q.1, match p.2 with | some out => out :: q.2 | none => q.2)

/-- Modelled from the spec: after a frame's updates, every entry of this
camera not observed this frame has frames-since-update incremented, and any
entry whose frames-since-update exceeds 30 is deleted (spec section 4.2). -/
def pruneStale (store : TrackStore) (cam : String) (observed : List Int) : TrackStore :=
  (store.map fun p =>
    if p.1.1 = cam ∧ p.1.2 ∉ observed then
      (p.1, ⟨p.2.center, p.2.age, p.2.framesSinceUpdate + 1⟩)
    else p).filter fun p => decide (¬(p.1.1 = cam ∧ 30 < p.2.framesSinceUpdate))

/-- Modelled from the spec: the full per-frame update of the missing Track
State Store (spec section 4.2) — apply the frame's detections, then age and
prune the entries of this camera that were not observed. -/
def trackUpdate (store : TrackStore) (cam : String) (dets : List TrackDetection) :
    TrackStore × List TrackOutput :=
  let r := applyDetections cam store dets
  let observed := dets.filterMap fun d => if 0 < d.trackId then some d.trackId else none
  (pruneStale r.1 cam observed, r.2)

/-- Modelled from the spec: a streaming session for one camera feeding the
missing Track State Store one frame of detections at a time, collecting
each frame's per-track outputs (spec sections 2 and 4.5, data flow). -/
def runFrames (cam : String) : TrackStore → List (List TrackDetection) →
    List (List TrackOutput)
  | _, [] => []
  | store, frame :: rest =>
    let r := trackUpdate store cam frame
    r.2 :: runFrames cam r.1 rest

/-- Frames each containing exactly one detection with the given track id,
at the given sequence of centers. -/
def singleFrames (tid : Int) (cs : List (ℚ × ℚ)) : List (List TrackDetection) :=
  cs.map fun c => [⟨tid, c⟩]

/-- The outputs claim C1 predicts from the second appearance of a track on:
age grows by one per frame and velocity is the first difference of the
centers. -/
def expectedOutputs (tid : Int) : ℚ × ℚ → Nat → List (ℚ × ℚ) → List (List TrackOutput)
  | _, _, [] => []
  | prev, k, c :: rest =>
    [⟨tid, "active", k + 1, (c.1 - prev.1, c.2 - prev.2)⟩] ::
      expectedOutputs tid c (k + 1) rest

theorem trackUpdate_new (cam : String) (tid : Int) (h : 0 < tid) (c : ℚ × ℚ) :
    trackUpdate [] cam [⟨tid, c⟩] =
      ([((cam, tid), ⟨c, 0, 0⟩)], [⟨tid, "new", 0, (0, 0)⟩]) := by
  have hne : ¬ tid ≤ 0 := not_le.mpr h
  simp [trackUpdate, applyDetections, updateOne, findTrack, pruneStale, hne, h]

theorem trackUpdate_existing (cam : String) (tid : Int) (h : 0 < tid)
    (prev c : ℚ × ℚ) (k : Nat) :
    trackUpdate [((cam, tid), ⟨prev, k, 0⟩)] cam [⟨tid, c⟩] =
      ([((cam, tid), ⟨c, k + 1, 0⟩)],
        [⟨tid, "active", k + 1, (c.1 - prev.1, c.2 - prev.2)⟩]) := by
  have hne : ¬ tid ≤ 0 := not_le.mpr h
  simp [trackUpdate, applyDetections, updateOne, findTrack, pruneStale, hne, h]

theorem runFrames_existing (cam : String) (tid : Int) (h : 0 < tid) :
    ∀ (cs : List (ℚ × ℚ)) (prev : ℚ × ℚ) (k : Nat),
      runFrames cam [((cam, tid), ⟨prev, k, 0⟩)] (singleFrames tid cs) =
        expectedOutputs tid prev k cs := by
  intro cs
  induction cs with
  | nil => intro prev k; simp [runFrames, singleFrames, expectedOutputs]
  | cons c rest ih =>
    intro prev k
    have hstep : singleFrames tid (c :: rest) = [⟨tid, c⟩] :: singleFrames tid rest := by
      simp [singleFrames]
    rw [hstep]
    simp only [runFrames, trackUpdate_existing cam tid h prev c k, expectedOutputs]
    exact congrArg _ (ih c (k + 1))

/-- Claim C1 (Track State Store modelled from the spec): for every camera
and track id above 0, the per-track output reports velocity (0, 0) and age
0 on the track's first observed frame, and on each later appearance age
grows by one and velocity equals the current center minus the previous
center; in particular camera cam1 streaming three frames with track id 7
centered at (100,100), (110,100), (130,100) yields ages 0, 1, 2 and
velocities (0,0), (10,0), (20,0). -/
theorem track_ages_and_velocities (cam : String) (tid : Int) (h : 0 < tid)
    (c0 : ℚ × ℚ) (cs : List (ℚ × ℚ)) :
    runFrames cam [] (singleFrames tid (c0 :: cs)) =
      [⟨tid, "new", 0, (0, 0)⟩] :: expectedOutputs tid c0 0 cs ∧
    runFrames "cam1" [] (singleFrames 7 [(100, 100), (110, 100), (130, 100)]) =
      [[⟨7, "new", 0, (0, 0)⟩], [⟨7, "active", 1, (10, 0)⟩],
        [⟨7, "active", 2, (20, 0)⟩]] := by
  have hgen : ∀ (cam : String) (tid : Int), 0 < tid → ∀ (c0 : ℚ × ℚ) (cs : List (ℚ × ℚ)),
      runFrames cam [] (singleFrames tid (c0 :: cs)) =
        [⟨tid, "new", 0, (0, 0)⟩] :: expectedOutputs tid c0 0 cs := by
    intro cam tid h c0 cs
    have hstep : singleFrames tid (c0 :: cs) = [⟨tid, c0⟩] :: singleFrames tid cs := by
      simp [singleFrames]
    rw [hstep]
    simp only [runFrames, trackUpdate_new cam tid h c0]
    exact congrArg _ (runFrames_existing cam tid h cs c0 0)
  refine ⟨hgen cam tid h c0 cs, ?_⟩
  rw [hgen "cam1" 7 (by norm_num) (100, 100) [(110, 100), (130, 100)]]
  norm_num [expectedOutputs]

/-- Witness for claim C1: the cam1 three-frame scenario with track id 7. -/
theorem track_ages_and_velocities_witness :
    (0 : Int) < 7 ∧
      runFrames "cam1" [] (singleFrames 7 [(100, 100), (110, 100), (130, 100)]) =
        [⟨7, "new", 0, (0, 0)⟩] ::
          expectedOutputs 7 (100, 100) 0 [(110, 100), (130, 100)] :=
  ⟨by norm_num,
   (track_ages_and_velocities "cam1" 7 (by norm_num) (100, 100)
     [(110, 100), (130, 100)]).1⟩

/-- Embeds the per-frame loop of DetectionServicer.DetectStream
(grpc_server.py lines 64-163; AnalyzeStream at lines 266-452 has the same
structure): each received frame is processed inside its own try block, a
processing exception is caught, logged and the loop continues with the next
frame, and a successful frame yields exactly one response.  The per-frame
body (lines 68-151: detection, tracking, response construction) is
abstracted as the process argument returning either the response or the
exception raised; the request iterator is embedded as the list of frames
the channel delivers before closing, so reaching the end of the list is the
channel closing — the only way the loop ends. -/
def detectStreamLoop {F R E : Type} (process : F → Except E R) : List F → List R
  | [] => []
  | f :: rest =>
    match process f with
    | .ok r => r :: detectStreamLoop process rest
    | .error _ => detectStreamLoop process rest

/-- Claim C8: an exception raised while processing one frame is caught
inside the loop and the session continues with the next frame — one
malformed frame between two valid frames yields exactly the two successful
responses, and whatever frames follow are still processed, so the session
is not terminated by the failure. -/
theorem stream_survives_bad_frame {F R E : Type} (process : F → Except E R)
    (f1 m f2 : F) (r1 r2 : R) (e : E)
    (h1 : process f1 = .ok r1) (hm : process m = .error e)
    (h2 : process f2 = .ok r2) :
    detectStreamLoop process [f1, m, f2] = [r1, r2] ∧
    (∀ rest : List F, detectStreamLoop process (f1 :: m :: f2 :: rest) =
      r1 :: r2 :: detectStreamLoop process rest) := by
  refine ⟨?_, fun rest => ?_⟩ <;> simp [detectStreamLoop, h1, hm, h2]

/-- A concrete frame processor for the C8 witness: frame 0 stands for the
malformed frame, every other frame produces itself as response. -/
def witnessProcess (n : Nat) : Except Nat Nat :=
  if n = 0 then .error 0 else .ok n

/-- Witness for claim C8: one malformed frame between two valid ones. -/
theorem stream_survives_bad_frame_witness :
    detectStreamLoop witnessProcess [1, 0, 2] = [1, 2] ∧
    (∀ rest : List Nat, detectStreamLoop witnessProcess (1 :: 0 :: 2 :: rest) =
      1 :: 2 :: detectStreamLoop witnessProcess rest) :=
  stream_survives_bad_frame witnessProcess 1 0 2 1 2 0 (by rfl) (by rfl) (by rfl)

/-- Embeds grpc_server.py AnalyzeStream line 281: classes_filter is
list(request.classes_filter) if request.classes_filter else
self.classes_filter.  A proto3 repeated field carries no presence bit, so
an explicitly supplied empty list and an absent field alike arrive as the
empty sequence, which is falsy in Python. -/
def analyzeStreamClassesFilter (requestClasses : List String)
    (configuredFilter : Option (List String)) : Option (List String) :=
  if requestClasses.isEmpty then configuredFilter else some requestClasses

/-- Embeds main.py line 309 in run_detection (lines 487 and 524 are
identical): effective_filter = classes_filter or self.default_classes_filter
— the Python or-expression falls back to the default both for None and for
an empty list. -/
def effectiveFilter (classesFilter : Option (List String))
    (defaultFilter : Option (List String)) : Option (List String) :=
  match classesFilter with
  | some l => if l.isEmpty then defaultFilter else some l
  | none => defaultFilter

/-- Counterexample to claim C9: a streamed analyze request whose class-name
filter field is an explicitly supplied empty list is NOT processed with the
class filter cleared — with the servicer's configured filter set to
person, the frame is analyzed with filter person, both at the AnalyzeStream
fallback and through run_detection's own fallback. -/
theorem stream_empty_filter_not_cleared :
    analyzeStreamClassesFilter [] (some ["person"]) = some ["person"] ∧
    analyzeStreamClassesFilter [] (some ["person"]) ≠ none ∧
    effectiveFilter (analyzeStreamClassesFilter [] (some ["person"])) none =
      some ["person"] := by
  refine ⟨rfl, by simp [analyzeStreamClassesFilter], rfl⟩

/-- Claim C9 as amended: a streamed analyze request whose class-name filter
field is empty — whether absent or explicitly supplied empty, the protocol
cannot distinguish them — is processed with the deployment's configured
filter, and only a non-empty filter overrides it. -/
theorem stream_empty_filter_uses_default (d : Option (List String))
    (cs : List String) (hcs : cs ≠ []) :
    analyzeStreamClassesFilter [] d = d ∧
    analyzeStreamClassesFilter cs d = some cs := by
  refine ⟨rfl, ?_⟩
  simp [analyzeStreamClassesFilter, hcs]

/-- Witness for the amended claim C9: configured filter person, request
filter car. -/
theorem stream_empty_filter_uses_default_witness :
    (["car"] : List String) ≠ [] ∧
      (analyzeStreamClassesFilter [] (some ["person"]) = some ["person"] ∧
        analyzeStreamClassesFilter ["car"] (some ["person"]) = some ["car"]) :=
  ⟨by decide, stream_empty_filter_uses_default (some ["person"]) ["car"] (by decide)⟩

/-- Assoc-list lookup in the lowercased name-to-id mapping, the embedding
of the dict built at main.py line 275.  A Python dict comprehension keeps
the last entry for a duplicated lowercased name while this lookup keeps the
first; real model class names are distinct, and the claim proved below only
exercises the no-match case, where the two agree regardless. -/
def lookupName : List (String × Nat) → String → Option Nat
  | [], _ => none
  | (k, v) :: rest, name => if k = name then some v else lookupName rest name

/-- Embeds MultiTaskYOLOService._get_class_ids (main.py lines 270-282):
model.names is an id-to-name association list; a missing or empty filter
yields None, otherwise each filter name is lowercased and looked up in the
lowercased model names, names without a match are dropped, and an empty
match list collapses to None again. -/
def getClassIds (modelNames : List (Nat × String))
    (classNames : Option (List String)) : Option (List Nat) :=
  match classNames with
  | none => none
  | some names =>
    if names.isEmpty then none
    else
      let nameToId := modelNames.map fun p => (lowerString p.2, p.1)
      let classIds := names.filterMap fun n => lookupName nameToId (lowerString n)
      if classIds.isEmpty then none else some classIds

/-- Modelled from the spec: the uniform inference-engine contract (spec
section 1, out-of-scope collaborators) for the classes argument that
run_detection passes to the engine (main.py line 312) — a class-id list
restricts detection to those ids and None applies no restriction at all. -/
def classAllowed : Option (List Nat) → Nat → Bool
  | none, _ => true
  | some ids, c => ids.contains c

theorem lookupName_eq_none {l : List (String × Nat)} {name : String}
    (h : ∀ p ∈ l, p.1 ≠ name) : lookupName l name = none := by
  induction l with
  | nil => rfl
  | cons p rest ih =>
    obtain ⟨k, v⟩ := p
    simp only [lookupName]
    rw [if_neg (h (k, v) (List.mem_cons_self _ _))]
    exact ih fun q hq => h q (List.mem_cons_of_mem _ hq)

/-- Claim C10: a non-empty class filter in which no name matches any class
name of the loaded model (case-insensitively) makes _get_class_ids return
None, and detection therefore runs with no class restriction at all — every
class is allowed instead of none. -/
theorem unmatched_filter_detects_all (modelNames : List (Nat × String))
    (classFilter : List String) (hne : classFilter ≠ [])
    (hnomatch : ∀ n ∈ classFilter, ∀ p ∈ modelNames,
      lowerString n ≠ lowerString p.2) :
    getClassIds modelNames (some classFilter) = none ∧
    ∀ c : Nat, classAllowed (getClassIds modelNames (some classFilter)) c = true := by
  have hids : (classFilter.filterMap fun n =>
      lookupName (modelNames.map fun p => (lowerString p.2, p.1)) (lowerString n)) = [] := by
    apply List.filterMap_eq_nil_iff.mpr
    intro n hn
    apply lookupName_eq_none
    intro q hq
    rcases List.mem_map.mp hq with ⟨p, hp, rfl⟩
    exact (hnomatch n hn p hp).symm
  have hnone : getClassIds modelNames (some classFilter) = none := by
    simp [getClassIds, hne, hids]
  exact ⟨hnone, fun c => by rw [hnone]; rfl⟩

/-- Witness for claim C10: a model knowing only the class person, filtered
by the unknown name bicycle. -/
theorem unmatched_filter_detects_all_witness :
    (["bicycle"] : List String) ≠ [] ∧
      (getClassIds [(0, "person")] (some ["bicycle"]) = none ∧
        ∀ c : Nat, classAllowed (getClassIds [(0, "person")] (some ["bicycle"])) c = true) :=
  ⟨by decide,
   unmatched_filter_detects_all [(0, "person")] ["bicycle"] (by decide) (by decide)⟩
